import Mathlib

/-!
Shallow embedding of the Progress-Tracker application (TypeScript/React).
Sources embedded: `src/types.ts`, `src/utils/calculations.ts`, and the
state-mutation handlers and derived `monthlyData` percentages of `src/App.tsx`.

JavaScript numbers are modelled as rationals (`ℚ`); the special values that
JavaScript arithmetic can produce (Infinity, -Infinity, NaN) are modelled
explicitly by the extended type `JsNum`, so that division by zero behaves as
in JavaScript rather than as Lean's division-by-zero convention.
-/

namespace Tracker

/-- `DayHabits` from `src/types.ts`: four boolean habit flags. -/
structure DayHabits where
  noPorn : Bool
  workout : Bool
  ipmatStudy : Bool
  nightWalk : Bool
deriving DecidableEq, Repr

/-- `HabitKey = keyof DayHabits` from `src/types.ts`. -/
inductive HabitKey where
  | noPorn | workout | ipmatStudy | nightWalk
deriving DecidableEq, Repr

/-- Reading the habit flag `habits[habit]`. -/
def DayHabits.get (h : DayHabits) : HabitKey → Bool
  | .noPorn => h.noPorn
  | .workout => h.workout
  | .ipmatStudy => h.ipmatStudy
  | .nightWalk => h.nightWalk

/-- The spread update `{ ...habits, [habit]: value }`. -/
def DayHabits.set (h : DayHabits) : HabitKey → Bool → DayHabits
  | .noPorn, v => { h with noPorn := v }
  | .workout, v => { h with workout := v }
  | .ipmatStudy, v => { h with ipmatStudy := v }
  | .nightWalk, v => { h with nightWalk := v }

/-- `DayMetrics` from `src/types.ts`: two numeric metrics. -/
structure DayMetrics where
  studyHours : ℚ
  timeWasted : ℚ
deriving DecidableEq, Repr

/-- `MetricKey = keyof DayMetrics` from `src/types.ts`. -/
inductive MetricKey where
  | studyHours | timeWasted
deriving DecidableEq, Repr

/-- Reading `metrics[metric]`. -/
def DayMetrics.get (m : DayMetrics) : MetricKey → ℚ
  | .studyHours => m.studyHours
  | .timeWasted => m.timeWasted

/-- The spread update `{ ...metrics, [metric]: value }`. -/
def DayMetrics.set (m : DayMetrics) : MetricKey → ℚ → DayMetrics
  | .studyHours, v => { m with studyHours := v }
  | .timeWasted, v => { m with timeWasted := v }

/-- `DayRecord` from `src/types.ts`. -/
structure DayRecord where
  id : ℕ
  dayNumber : ℕ
  date : String
  habits : DayHabits
  metrics : DayMetrics
  isFilled : Bool
deriving DecidableEq, Repr

/-- `StreakInfo` from `src/types.ts`. -/
structure StreakInfo where
  current : ℕ
  max : ℕ
deriving DecidableEq, Repr

/-- One step of the historical-max loop body in `calculateStreak`
(`src/utils/calculations.ts`): state is `(maxStreak, tempStreak)`. -/
def maxStep (habit : HabitKey) (s : ℕ × ℕ) (r : DayRecord) : ℕ × ℕ :=
  if r.habits.get habit then (s.1, s.2 + 1)
  else (if s.2 > s.1 then s.2 else s.1, 0)

/-- Stable insertion into a day-number-descending list; models the effect of
the stable JavaScript `sort((a, b) => b.dayNumber - a.dayNumber)`. -/
def insertByDayDesc (r : DayRecord) : List DayRecord → List DayRecord
  | [] => [r]
  | x :: xs => if x.dayNumber ≤ r.dayNumber then r :: x :: xs else x :: insertByDayDesc r xs

/-- Stable sort by `dayNumber` descending, as performed on the filled records
in `calculateStreak`. -/
def sortByDayDesc : List DayRecord → List DayRecord
  | [] => []
  | r :: rs => insertByDayDesc r (sortByDayDesc rs)

/-- The `for ... break` loop computing `current` in `calculateStreak`: count
records from the front while the habit flag is true, stop at the first false. -/
def countLeading (habit : HabitKey) : List DayRecord → ℕ
  | [] => 0
  | r :: rs => if r.habits.get habit then countLeading habit rs + 1 else 0

/-- `calculateStreak` from `src/utils/calculations.ts`. -/
def calculateStreak (records : List DayRecord) (habit : HabitKey) : StreakInfo :=
  let p := records.foldl (maxStep habit) (0, 0)
  let maxStreak := if p.2 > p.1 then p.2 else p.1
  let filledSorted := sortByDayDesc (records.filter (fun r => r.isFilled))
  if filledSorted.isEmpty then ⟨0, maxStreak⟩
  else ⟨countLeading habit filledSorted, maxStreak⟩

/-- `generateInitialData` from `src/utils/calculations.ts`: 365 records with
ids and day numbers 1..365, all flags false, all metrics 0, unfilled. The
locale-dependent date string of day `i` is abstracted as `dateOf i`. -/
def generateInitialData (dateOf : ℕ → String) : List DayRecord :=
  (List.range 365).map fun i =>
    { id := i + 1, dayNumber := i + 1, date := dateOf (i + 1)
      habits := ⟨false, false, false, false⟩
      metrics := ⟨0, 0⟩, isFilled := false }

/-- `parseFloat(value) || 0` in the handlers of `src/App.tsx`: the parse
result is modelled as `Option ℚ` (`none` for NaN on invalid/empty input),
and `|| 0` turns NaN into 0. -/
def parsedOrZero (v : Option ℚ) : ℚ := v.getD 0

/-- The per-record update of `handleHabitChange` in `src/App.tsx`. -/
def habitStep (id : ℕ) (habit : HabitKey) (value : Bool) (r : DayRecord) : DayRecord :=
  if r.id = id then { r with isFilled := true, habits := r.habits.set habit value } else r

/-- `handleHabitChange` from `src/App.tsx` (the `setRecords` map). -/
def handleHabitChange (records : List DayRecord) (id : ℕ) (habit : HabitKey)
    (value : Bool) : List DayRecord :=
  records.map (habitStep id habit value)

/-- The per-record update of `handleMetricChange` in `src/App.tsx`, with the
already-clamped `numValue`. -/
def metricStep (id : ℕ) (metric : MetricKey) (numValue : ℚ) (r : DayRecord) : DayRecord :=
  if r.id = id then { r with isFilled := true, metrics := r.metrics.set metric numValue } else r

/-- `handleMetricChange` from `src/App.tsx`:
`numValue = Math.min(24, Math.max(0, parseFloat(value) || 0))`. -/
def handleMetricChange (records : List DayRecord) (id : ℕ) (metric : MetricKey)
    (value : Option ℚ) : List DayRecord :=
  let numValue := min 24 (max 0 (parsedOrZero value))
  records.map (metricStep id metric numValue)

/-- `MonthlyGoal` from `src/types.ts`. -/
structure MonthlyGoal where
  month : String
  studyTarget : ℚ
  wasteLimit : ℚ
deriving DecidableEq, Repr

/-- The numeric fields of `MonthlyGoal` that `updateGoal` is called with. -/
inductive GoalKey where
  | studyTarget | wasteLimit
deriving DecidableEq, Repr

/-- `updateGoal` from `src/App.tsx`: `parseFloat(value) || 0`, no clamping. -/
def updateGoal (g : MonthlyGoal) (field : GoalKey) (value : Option ℚ) : MonthlyGoal :=
  match field with
  | .studyTarget => { g with studyTarget := parsedOrZero value }
  | .wasteLimit => { g with wasteLimit := parsedOrZero value }

/-- A JavaScript number: finite (modelled as a rational), an infinity, or NaN. -/
inductive JsNum where
  | fin : ℚ → JsNum
  | posInf : JsNum
  | negInf : JsNum
  | nan : JsNum
deriving DecidableEq, Repr

/-- JavaScript `Math.round` on rationals: round half toward positive infinity. -/
def jround (q : ℚ) : ℤ := ⌊q + 1 / 2⌋

/-- JavaScript division of two finite numbers: division by zero produces an
infinity of the numerator's sign, or NaN for `0 / 0`. -/
def jsDiv (a b : ℚ) : JsNum :=
  if b = 0 then (if 0 < a then .posInf else if a < 0 then .negInf else .nan)
  else .fin (a / b)

/-- `1 - x` on a JavaScript number. -/
def jsOneSub : JsNum → JsNum
  | .fin q => .fin (1 - q)
  | .posInf => .negInf
  | .negInf => .posInf
  | .nan => .nan

/-- `x * c` for a finite constant `c` on a JavaScript number. -/
def jsMulC : JsNum → ℚ → JsNum
  | .fin q, c => .fin (q * c)
  | .posInf, c => if c = 0 then .nan else if 0 < c then .posInf else .negInf
  | .negInf, c => if c = 0 then .nan else if 0 < c then .negInf else .posInf
  | .nan, _ => .nan

/-- JavaScript `Math.round` on a JavaScript number: infinities and NaN are
returned unchanged. -/
def jsRound : JsNum → JsNum
  | .fin q => .fin (jround q)
  | .posInf => .posInf
  | .negInf => .negInf
  | .nan => .nan

/-- JavaScript `Math.max(a, x)` with finite `a`. -/
def jsMaxC (a : ℚ) : JsNum → JsNum
  | .fin q => .fin (max a q)
  | .posInf => .posInf
  | .negInf => .fin a
  | .nan => .nan

/-- The `achievement` field of `monthlyData` in `src/App.tsx`:
`study >= target ? 100 : Math.round((study / target) * 100)`. -/
def achievement (study target : ℚ) : JsNum :=
  if target ≤ study then .fin 100
  else jsRound (jsMulC (jsDiv study target) 100)

/-- The `wasteCompliance` field of `monthlyData` in `src/App.tsx`:
`wasted <= limit ? 100 : Math.max(0, Math.round((1 - (wasted - limit) / limit) * 100))`. -/
def wasteCompliance (wasted limit : ℚ) : JsNum :=
  if wasted ≤ limit then .fin 100
  else jsMaxC 0 (jsRound (jsMulC (jsOneSub (jsDiv (wasted - limit) limit)) 100))

/-- Spec-side description of the `current` computation (§ Streak Calculator):
select only filled records, order by `dayNumber` descending, and count
consecutive records with a true habit flag from the most recent one. -/
def currentSpec (records : List DayRecord) (habit : HabitKey) : ℕ :=
  ((sortByDayDesc (records.filter (fun r => r.isFilled))).takeWhile
    (fun r => r.habits.get habit)).length

/-- Spec-side description of the historical-max scan (§ Streak Calculator), on
the sequence of habit flags in canonical day order: a running counter that
increments on true, is compared against the maximum and reset on false, with
one final comparison after the scan. -/
def maxScanFlags (flags : List Bool) : ℕ :=
  let p := flags.foldl (fun (s : ℕ × ℕ) b =>
    if b then (s.1, s.2 + 1) else (if s.2 > s.1 then s.2 else s.1, 0)) (0, 0)
  if p.2 > p.1 then p.2 else p.1

/-- The `wasteCompliance` formula as the spec claims it, with the zero limit
clamped to a minimum of 1 in the ratio denominator. -/
def claimedWasteCompliance (wasted limit : ℚ) : ℚ :=
  if wasted ≤ limit then 100
  else max 0 (jround ((1 - (wasted - limit) / max limit 1) * 100))

theorem DayHabits.get_set_same (h : DayHabits) (k : HabitKey) (v : Bool) :
    (h.set k v).get k = v := by
  cases k <;> rfl

theorem DayHabits.get_set_other (h : DayHabits) (k k2 : HabitKey) (v : Bool) (hne : k2 ≠ k) :
    (h.set k v).get k2 = h.get k2 := by
  cases k <;> cases k2 <;> first | rfl | exact absurd rfl hne

theorem DayMetrics.get_set_self_metric (m : DayMetrics) (k : MetricKey) (v : ℚ) :
    (m.set k v).get k = v := by
  cases k <;> rfl

theorem DayMetrics.get_set_other_metric (m : DayMetrics) (k k2 : MetricKey) (v : ℚ) (hne : k2 ≠ k) :
    (m.set k v).get k2 = m.get k2 := by
  cases k <;> cases k2 <;> first | rfl | exact absurd rfl hne

theorem countLeading_eq_takeWhile (h : HabitKey) (l : List DayRecord) :
    countLeading h l = (l.takeWhile (fun r => r.habits.get h)).length := by
  induction l with
  | nil => rfl
  | cons r rs ih =>
    cases hf : r.habits.get h <;> simp [countLeading, List.takeWhile_cons, hf, ih]

theorem mem_insertByDayDesc {a r : DayRecord} {l : List DayRecord} :
    a ∈ insertByDayDesc r l ↔ a = r ∨ a ∈ l := by
  induction l with
  | nil => simp [insertByDayDesc]
  | cons x xs ih =>
    simp only [insertByDayDesc]
    split
    · simp [List.mem_cons]
    · simp only [List.mem_cons, ih]
      tauto

theorem mem_sortByDayDesc {a : DayRecord} {l : List DayRecord} :
    a ∈ sortByDayDesc l ↔ a ∈ l := by
  induction l with
  | nil => simp [sortByDayDesc]
  | cons r rs ih => simp [sortByDayDesc, mem_insertByDayDesc, ih]

theorem insertByDayDesc_map (f : DayRecord → DayRecord)
    (hf : ∀ r, (f r).dayNumber = r.dayNumber) (r : DayRecord) (l : List DayRecord) :
    insertByDayDesc (f r) (l.map f) = (insertByDayDesc r l).map f := by
  induction l with
  | nil => rfl
  | cons x xs ih =>
    simp only [List.map_cons, insertByDayDesc, hf]
    split <;> simp [List.map_cons, ih]

theorem sortByDayDesc_map (f : DayRecord → DayRecord)
    (hf : ∀ r, (f r).dayNumber = r.dayNumber) (l : List DayRecord) :
    sortByDayDesc (l.map f) = (sortByDayDesc l).map f := by
  induction l with
  | nil => rfl
  | cons r rs ih => simp [sortByDayDesc, ih, insertByDayDesc_map f hf]

theorem calculateStreak_current_eq (records : List DayRecord) (habit : HabitKey) :
    (calculateStreak records habit).current
      = countLeading habit (sortByDayDesc (records.filter (fun r => r.isFilled))) := by
  unfold calculateStreak
  cases hs : sortByDayDesc (records.filter (fun r => r.isFilled)) <;> simp [hs, countLeading]

theorem calculateStreak_max_eq (records : List DayRecord) (habit : HabitKey) :
    (calculateStreak records habit).max
      = maxScanFlags (records.map (fun r => r.habits.get habit)) := by
  unfold calculateStreak maxScanFlags
  dsimp only
  rw [List.foldl_map]
  split <;> rfl

theorem jround_nonneg {x : ℚ} (hx : 0 ≤ x) : 0 ≤ jround x := by
  unfold jround
  exact Int.le_floor.mpr (by push_cast; linarith)

theorem jround_le_100 {x : ℚ} (hx : x < 100) : jround x ≤ 100 := by
  unfold jround
  have : jround x < 101 := Int.floor_lt.mpr (by push_cast; linarith)
  unfold jround at this
  omega

/-- C1: the `current` field of `calculateStreak` selects only filled records,
orders them by `dayNumber` descending, and counts consecutive true habit flags
from the most recent filled record, stopping at the first filled false;
unfilled days neither count toward nor break the current streak (removing them
leaves `current` unchanged), and with no filled records `current` is 0. -/
theorem calculateStreak_current_correct (records : List DayRecord) (habit : HabitKey) :
    (calculateStreak records habit).current = currentSpec records habit ∧
    (calculateStreak (records.filter (fun r => r.isFilled)) habit).current
      = (calculateStreak records habit).current ∧
    (records.filter (fun r => r.isFilled) = [] →
      (calculateStreak records habit).current = 0) := by
  refine ⟨?_, ?_, ?_⟩
  · rw [calculateStreak_current_eq, currentSpec, countLeading_eq_takeWhile]
  · rw [calculateStreak_current_eq, calculateStreak_current_eq]
    simp only [List.filter_filter, Bool.and_self]
  · intro hnil
    rw [calculateStreak_current_eq, hnil]
    rfl

/-- Witness for C1 at a concrete input with no filled records. -/
theorem calculateStreak_current_correct_witness :
    (calculateStreak ([] : List DayRecord) .noPorn).current = 0 :=
  (calculateStreak_current_correct [] .noPorn).2.2 rfl

/-- C2: the `max` field of `calculateStreak` is one scan over the habit flags
in record order, incrementing a counter on true, comparing and resetting on
false, with one final comparison; when unfilled records carry false flags (the
app invariant), an unfilled day breaks a streak exactly like an explicit false
flag. -/
theorem calculateStreak_max_correct (records : List DayRecord) (habit : HabitKey) :
    (calculateStreak records habit).max
      = maxScanFlags (records.map (fun r => r.habits.get habit)) ∧
    ((∀ r ∈ records, r.isFilled = false → r.habits.get habit = false) →
      (calculateStreak records habit).max
        = maxScanFlags (records.map (fun r => r.isFilled && r.habits.get habit))) := by
  refine ⟨calculateStreak_max_eq records habit, fun hinv => ?_⟩
  rw [calculateStreak_max_eq]
  congr 1
  refine List.map_eq_map_iff.mpr fun r hr => ?_
  cases hf : r.isFilled
  · simp [hinv r hr hf]
  · simp

/-- Witness for C2 at a concrete record collection satisfying the invariant
that unfilled records have false flags. -/
theorem calculateStreak_max_correct_witness :
    (calculateStreak
        ([⟨1, 1, "", ⟨true, false, false, false⟩, ⟨0, 0⟩, true⟩,
          ⟨2, 2, "", ⟨false, false, false, false⟩, ⟨0, 0⟩, false⟩] : List DayRecord)
        .noPorn).max
      = maxScanFlags
          (([⟨1, 1, "", ⟨true, false, false, false⟩, ⟨0, 0⟩, true⟩,
             ⟨2, 2, "", ⟨false, false, false, false⟩, ⟨0, 0⟩, false⟩] : List DayRecord).map
            (fun r => r.isFilled && r.habits.get .noPorn)) :=
  (calculateStreak_max_correct _ .noPorn).2 (by decide)

/-- C3 counterexample: the code applies no clamp-to-1 on a zero `wasteLimit`:
for `actualWaste = 1/2` and `wasteLimit = 0` the code returns 0 while the
claimed clamped formula gives 50. -/
theorem wasteCompliance_clamp_counterexample :
    wasteCompliance (1/2) 0 = .fin 0 ∧
    claimedWasteCompliance (1/2) 0 = 50 ∧ (0 : ℚ) ≠ 50 := by
  refine ⟨?_, ?_, by norm_num⟩
  · norm_num [wasteCompliance, jsDiv, jsOneSub, jsMulC, jsRound, jsMaxC, jround]
  · norm_num [claimedWasteCompliance, jround]

/-- C3 amended: `wasteCompliance` is exactly 100 when `actualWaste ≤
wasteLimit`; otherwise, with no denominator clamp in the code, a zero
`wasteLimit` makes the JavaScript division produce an infinity and the result
collapse to 0, and a nonzero `wasteLimit` gives
`max 0 (round((1 - (actualWaste - wasteLimit) / wasteLimit) * 100))`; the
result is always a finite number (never NaN or an infinity), and for
`actualWaste = 0`, `wasteLimit = 0` it is 100. -/
theorem wasteCompliance_amended (w l : ℚ) :
    (w ≤ l → wasteCompliance w l = .fin 100) ∧
    (l < w → l = 0 → wasteCompliance w l = .fin 0) ∧
    (l < w → l ≠ 0 →
      wasteCompliance w l = .fin ((max 0 (jround ((1 - (w - l) / l) * 100)) : ℤ) : ℚ)) ∧
    (∃ q : ℚ, wasteCompliance w l = .fin q) ∧
    wasteCompliance 0 0 = .fin 100 := by
  have h2 : l < w → l = 0 → wasteCompliance w l = .fin 0 := by
    intro hlw hl0
    subst hl0
    have hw : 0 < w := hlw
    norm_num [wasteCompliance, not_le.mpr hlw, jsDiv, jsOneSub, jsMulC, jsRound, jsMaxC, hw]
  have h3 : l < w → l ≠ 0 →
      wasteCompliance w l = .fin ((max 0 (jround ((1 - (w - l) / l) * 100)) : ℤ) : ℚ) := by
    intro hlw hl0
    simp [wasteCompliance, not_le.mpr hlw, jsDiv, hl0, jsOneSub, jsMulC, jsRound, jsMaxC]
  refine ⟨fun hwl => by simp [wasteCompliance, hwl], h2, h3, ?_, by norm_num [wasteCompliance]⟩
  rcases le_or_lt w l with hwl | hlw
  · exact ⟨100, by simp [wasteCompliance, hwl]⟩
  · by_cases hl0 : l = 0
    · exact ⟨0, h2 hlw hl0⟩
    · exact ⟨_, h3 hlw hl0⟩

/-- Witness for C3 at a concrete input hitting the zero-limit branch. -/
theorem wasteCompliance_amended_witness : wasteCompliance 5 0 = .fin 0 :=
  (wasteCompliance_amended 5 0).2.1 (by norm_num) rfl

/-- C4: `achievement` is exactly 100 when `actualStudy ≥ studyTarget` (in
particular when they are equal) and otherwise
`round(actualStudy / studyTarget * 100)`; for `actualStudy = 0` and
`studyTarget = 150` it is 0. Actual study totals are nonnegative sums of
clamped metrics, reflected by the hypothesis `0 ≤ s`. -/
theorem achievement_correct (s t : ℚ) (hs : 0 ≤ s) :
    (t ≤ s → achievement s t = .fin 100) ∧
    (s < t → achievement s t = .fin ((jround (s / t * 100) : ℤ) : ℚ)) ∧
    achievement t t = .fin 100 ∧
    achievement 0 150 = .fin 0 := by
  refine ⟨fun hts => by simp [achievement, hts], fun hst => ?_, by simp [achievement],
    by norm_num [achievement, jsDiv, jsMulC, jsRound, jround]⟩
  have ht : 0 < t := lt_of_le_of_lt hs hst
  simp [achievement, not_le.mpr hst, jsDiv, ne_of_gt ht, jsMulC, jsRound]

/-- Witness for C4 at a concrete input below target. -/
theorem achievement_correct_witness : achievement 3 150 = .fin 2 := by
  have h := (achievement_correct 3 150 (by norm_num)).2.1 (by norm_num)
  norm_num [jround] at h
  exact h

/-- C5 counterexample: the goal edit accepts a negative `wasteLimit` (-10),
and with `actualWaste = 0` the code then returns `wasteCompliance = 200`,
outside [0, 100]. -/
theorem percentages_range_counterexample :
    (updateGoal ⟨"January", 150, 30⟩ .wasteLimit (some (-10))).wasteLimit = -10 ∧
    wasteCompliance 0 (-10) = .fin 200 ∧ ¬(200 : ℚ) ≤ 100 := by
  refine ⟨rfl, ?_, by norm_num⟩
  norm_num [wasteCompliance, jsDiv, jsOneSub, jsMulC, jsRound, jsMaxC, jround]

/-- C5 amended: with a nonnegative actual study total, `achievement` always
lies in [0, 100] (capped at exactly 100); `wasteCompliance` lies in [0, 100]
whenever `wasteLimit` is nonnegative, but a negative `wasteLimit` accepted by
the goal edit can push it above 100. -/
theorem percentages_range_amended (s t w l : ℚ) (hs : 0 ≤ s) :
    (∃ q : ℚ, achievement s t = .fin q ∧ 0 ≤ q ∧ q ≤ 100) ∧
    (0 ≤ l → ∃ q : ℚ, wasteCompliance w l = .fin q ∧ 0 ≤ q ∧ q ≤ 100) := by
  constructor
  · by_cases hts : t ≤ s
    · exact ⟨100, by simp [achievement, hts], by norm_num, le_rfl⟩
    · push_neg at hts
      have ht : 0 < t := lt_of_le_of_lt hs hts
      refine ⟨((jround (s / t * 100) : ℤ) : ℚ), ?_, ?_, ?_⟩
      · simp [achievement, not_le.mpr hts, jsDiv, ne_of_gt ht, jsMulC, jsRound]
      · exact_mod_cast jround_nonneg (by positivity)
      · have harg : s / t * 100 < 100 := by
          have : s / t < 1 := (div_lt_one ht).mpr hts
          nlinarith
        exact_mod_cast jround_le_100 harg
  · intro hl
    by_cases hwl : w ≤ l
    · exact ⟨100, by simp [wasteCompliance, hwl], by norm_num, le_rfl⟩
    · push_neg at hwl
      by_cases hl0 : l = 0
      · exact ⟨0, (wasteCompliance_amended w l).2.1 hwl hl0, le_rfl, by norm_num⟩
      · have hlpos : 0 < l := lt_of_le_of_ne hl (Ne.symm hl0)
        refine ⟨((max 0 (jround ((1 - (w - l) / l) * 100)) : ℤ) : ℚ),
          (wasteCompliance_amended w l).2.2.1 hwl hl0, ?_, ?_⟩
        · exact_mod_cast le_max_left 0 _
        · have harg : (1 - (w - l) / l) * 100 < 100 := by
            have hd : 0 < (w - l) / l := div_pos (sub_pos.mpr hwl) hlpos
            nlinarith
          have : max 0 (jround ((1 - (w - l) / l) * 100)) ≤ 100 :=
            max_le (by norm_num) (jround_le_100 harg)
          exact_mod_cast this

/-- Witness for C5 at concrete aggregates and nonnegative goals. -/
theorem percentages_range_amended_witness :
    (∃ q : ℚ, achievement 0 150 = .fin q ∧ 0 ≤ q ∧ q ≤ 100) ∧
    (∃ q : ℚ, wasteCompliance 40 30 = .fin q ∧ 0 ≤ q ∧ q ≤ 100) :=
  ⟨(percentages_range_amended 0 150 40 30 (by norm_num)).1,
   (percentages_range_amended 0 150 40 30 (by norm_num)).2 (by norm_num)⟩

/-- C6 counterexample: toggling the false habit flag of the most-recently
filled day (day 2) from false to true raises `current` from 0 to 2, not by at
most 1: the newly true day reconnects with the older true run. -/
theorem habit_toggle_counterexample :
    (calculateStreak
        ([⟨1, 1, "", ⟨true, false, false, false⟩, ⟨0, 0⟩, true⟩,
          ⟨2, 2, "", ⟨false, false, false, false⟩, ⟨0, 0⟩, true⟩] : List DayRecord)
        .noPorn).current = 0 ∧
    (calculateStreak
        (handleHabitChange
          ([⟨1, 1, "", ⟨true, false, false, false⟩, ⟨0, 0⟩, true⟩,
            ⟨2, 2, "", ⟨false, false, false, false⟩, ⟨0, 0⟩, true⟩] : List DayRecord)
          2 .noPorn true)
        .noPorn).current = 2 ∧
    ¬((2 : ℕ) = 0 ∨ (2 : ℕ) = 0 + 1) := by
  refine ⟨by decide, by decide, by decide⟩

/-- C6 amended: toggling the habit from false to true on the most-recently
filled day (with distinct record ids) never decreases `current`: beforehand
`current` is 0 and afterwards it is at least 1; it can grow by more than 1
when the toggle reconnects an older run of true flags. -/
theorem habit_toggle_current_monotone (records : List DayRecord) (h : HabitKey)
    (m : DayRecord) (rest : List DayRecord)
    (hnodup : (records.map (fun r => r.id)).Nodup)
    (hsort : sortByDayDesc (records.filter (fun r => r.isFilled)) = m :: rest)
    (hflag : m.habits.get h = false) :
    (calculateStreak records h).current = 0 ∧
    1 ≤ (calculateStreak (handleHabitChange records m.id h true) h).current := by
  have hm_mem_filter : m ∈ records.filter (fun r => r.isFilled) :=
    mem_sortByDayDesc.mp (hsort ▸ List.mem_cons_self m rest)
  have hm_mem : m ∈ records := (List.mem_filter.mp hm_mem_filter).1
  have hm_filled : m.isFilled = true := by
    simpa using (List.mem_filter.mp hm_mem_filter).2
  constructor
  · rw [calculateStreak_current_eq, hsort]
    simp [countLeading, hflag]
  · have hpres : ∀ r ∈ records, (habitStep m.id h true r).isFilled = r.isFilled := by
      intro r hr
      unfold habitStep
      by_cases hid : r.id = m.id
      · have hrm : r = m := List.inj_on_of_nodup_map hnodup hr hm_mem hid
        subst hrm
        simp [hm_filled]
      · simp [hid]
    have hday : ∀ r, (habitStep m.id h true r).dayNumber = r.dayNumber := by
      intro r
      unfold habitStep
      split <;> rfl
    have hfilter : (records.map (habitStep m.id h true)).filter (fun r => r.isFilled)
        = (records.filter (fun r => r.isFilled)).map (habitStep m.id h true) := by
      rw [List.filter_map]
      exact congrArg _ (List.filter_congr fun r hr => by
        simpa [Function.comp] using hpres r hr)
    rw [calculateStreak_current_eq]
    unfold handleHabitChange
    rw [hfilter, sortByDayDesc_map _ hday, hsort, List.map_cons]
    simp [countLeading, habitStep, DayHabits.get_set_same]

/-- Witness for C6 at the concrete two-record collection. -/
theorem habit_toggle_current_monotone_witness :
    (calculateStreak
        ([⟨1, 1, "", ⟨true, false, false, false⟩, ⟨0, 0⟩, true⟩,
          ⟨2, 2, "x", ⟨false, false, false, false⟩, ⟨0, 0⟩, true⟩] : List DayRecord)
        .workout).current = 0 ∧
    1 ≤ (calculateStreak
        (handleHabitChange
          ([⟨1, 1, "", ⟨true, false, false, false⟩, ⟨0, 0⟩, true⟩,
            ⟨2, 2, "x", ⟨false, false, false, false⟩, ⟨0, 0⟩, true⟩] : List DayRecord)
          2 .workout true)
        .workout).current := by
  exact habit_toggle_current_monotone _ .workout
    ⟨2, 2, "x", ⟨false, false, false, false⟩, ⟨0, 0⟩, true⟩
    [⟨1, 1, "", ⟨true, false, false, false⟩, ⟨0, 0⟩, true⟩]
    (by decide) (by decide) rfl

set_option maxRecDepth 100000 in
/-- C7: on a record collection reachable from the initial data through the
habit mutation handler (habit true on days 1 and 3, day 2 left unfilled),
`calculateStreak` returns `current` strictly greater than `max`: the ordering
`max ≥ current` is not guaranteed. -/
theorem current_exceeds_max_reachable :
    (calculateStreak (handleHabitChange (handleHabitChange
        (generateInitialData (fun _ => "")) 1 .noPorn true) 3 .noPorn true) .noPorn).max
      < (calculateStreak (handleHabitChange (handleHabitChange
        (generateInitialData (fun _ => "")) 1 .noPorn true) 3 .noPorn true) .noPorn).current := by
  decide

/-- C8: the metric mutation handler stores the parsed value (invalid input
becoming 0) clamped to [0, 24] in the targeted record's metrics and marks the
record filled; the clamped value lies in [0, 24], and the handler preserves
the invariant that every stored metric value lies in [0, 24]. -/
theorem handleMetricChange_clamps (records : List DayRecord) (id : ℕ)
    (k : MetricKey) (v : Option ℚ) :
    (∀ r ∈ handleMetricChange records id k v, r.id = id →
      r.isFilled = true ∧ r.metrics.get k = min 24 (max 0 (parsedOrZero v))) ∧
    (0 ≤ min 24 (max 0 (parsedOrZero v)) ∧ min (24 : ℚ) (max 0 (parsedOrZero v)) ≤ 24) ∧
    ((∀ r ∈ records, ∀ k2, 0 ≤ r.metrics.get k2 ∧ r.metrics.get k2 ≤ 24) →
      ∀ r ∈ handleMetricChange records id k v, ∀ k2,
        0 ≤ r.metrics.get k2 ∧ r.metrics.get k2 ≤ 24) := by
  have hbounds : 0 ≤ min (24 : ℚ) (max 0 (parsedOrZero v)) ∧
      min (24 : ℚ) (max 0 (parsedOrZero v)) ≤ 24 :=
    ⟨le_min (by norm_num) (le_max_left 0 _), min_le_left _ _⟩
  refine ⟨?_, hbounds, ?_⟩
  · intro r hr hrid
    simp only [handleMetricChange] at hr
    obtain ⟨r0, hr0, rfl⟩ := List.mem_map.mp hr
    by_cases hid : r0.id = id
    · simp [metricStep, hid, DayMetrics.get_set_self_metric]
    · exfalso
      apply hid
      simp [metricStep, hid] at hrid
  · intro hinv r hr k2
    simp only [handleMetricChange] at hr
    obtain ⟨r0, hr0, rfl⟩ := List.mem_map.mp hr
    by_cases hid : r0.id = id
    · by_cases hk : k2 = k
      · subst hk
        simp [metricStep, hid, DayMetrics.get_set_self_metric]
      · simpa [metricStep, hid, DayMetrics.get_set_other_metric _ _ _ _ hk] using hinv r0 hr0 k2
    · simpa [metricStep, hid] using hinv r0 hr0 k2

/-- Witness for C8: writing 10 study hours to day 1 stores the clamped value
and marks the record filled. -/
theorem handleMetricChange_clamps_witness :
    (⟨1, 1, "", ⟨false, false, false, false⟩, ⟨10, 0⟩, true⟩ : DayRecord).isFilled = true ∧
    (⟨1, 1, "", ⟨false, false, false, false⟩, ⟨10, 0⟩, true⟩ : DayRecord).metrics.get
        .studyHours = min 24 (max 0 (parsedOrZero (some 10))) := by
  refine (handleMetricChange_clamps
    ([⟨1, 1, "", ⟨false, false, false, false⟩, ⟨0, 0⟩, false⟩] : List DayRecord)
    1 .studyHours (some 10)).1 _ ?_ rfl
  norm_num [handleMetricChange, metricStep, parsedOrZero, DayMetrics.set]

/-- C9: `isFilled` is monotonic under both mutation handlers: a record that
was filled before the mutation is still filled afterwards, position by
position. -/
theorem isFilled_monotone (records : List DayRecord) (id : ℕ) (hk : HabitKey)
    (b : Bool) (k : MetricKey) (v : Option ℚ) (i : ℕ)
    (hi : i < records.length)
    (hi1 : i < (handleHabitChange records id hk b).length)
    (hi2 : i < (handleMetricChange records id k v).length)
    (hfilled : (records.get ⟨i, hi⟩).isFilled = true) :
    ((handleHabitChange records id hk b).get ⟨i, hi1⟩).isFilled = true ∧
    ((handleMetricChange records id k v).get ⟨i, hi2⟩).isFilled = true := by
  constructor
  · have hg : (handleHabitChange records id hk b).get ⟨i, hi1⟩
        = habitStep id hk b (records.get ⟨i, hi⟩) := by
      simp [handleHabitChange, List.getElem_map]
    rw [hg]
    unfold habitStep
    split <;> simp [← List.get_eq_getElem, hfilled]
  · have hg : (handleMetricChange records id k v).get ⟨i, hi2⟩
        = metricStep id k (min 24 (max 0 (parsedOrZero v))) (records.get ⟨i, hi⟩) := by
      simp [handleMetricChange, List.getElem_map]
    rw [hg]
    unfold metricStep
    split <;> simp [← List.get_eq_getElem, hfilled]

/-- Witness for C9 at a concrete one-record collection with the record filled. -/
theorem isFilled_monotone_witness :
    ((handleHabitChange
        ([⟨1, 1, "", ⟨false, false, false, false⟩, ⟨0, 0⟩, true⟩] : List DayRecord)
        1 .noPorn false).get ⟨0, by simp [handleHabitChange]⟩).isFilled = true ∧
    ((handleMetricChange
        ([⟨1, 1, "", ⟨false, false, false, false⟩, ⟨0, 0⟩, true⟩] : List DayRecord)
        1 .studyHours (some 3)).get ⟨0, by simp [handleMetricChange]⟩).isFilled = true :=
  isFilled_monotone _ 1 .noPorn false .studyHours (some 3) 0
    (by simp) (by simp [handleHabitChange]) (by simp [handleMetricChange]) rfl

/-- C10: both handlers are maps over the collection; a record whose id differs
from the target is left unchanged, the targeted record keeps its `id`,
`dayNumber` and `date` (the habit handler also keeps `metrics` and the other
habit flags, the metric handler keeps `habits` and the other metric), and if
no record carries the target id the whole collection is unchanged. -/
theorem handlers_frame (records : List DayRecord) (id : ℕ) (hk : HabitKey)
    (b : Bool) (k : MetricKey) (v : Option ℚ) :
    handleHabitChange records id hk b = records.map (habitStep id hk b) ∧
    handleMetricChange records id k v
      = records.map (metricStep id k (min 24 (max 0 (parsedOrZero v)))) ∧
    (∀ r : DayRecord, r.id ≠ id → habitStep id hk b r = r ∧
      metricStep id k (min 24 (max 0 (parsedOrZero v))) r = r) ∧
    (∀ r : DayRecord, (habitStep id hk b r).id = r.id ∧
      (habitStep id hk b r).dayNumber = r.dayNumber ∧
      (habitStep id hk b r).date = r.date ∧
      (habitStep id hk b r).metrics = r.metrics ∧
      (∀ k2 : HabitKey, k2 ≠ hk → (habitStep id hk b r).habits.get k2 = r.habits.get k2)) ∧
    (∀ r : DayRecord, (metricStep id k (min 24 (max 0 (parsedOrZero v))) r).id = r.id ∧
      (metricStep id k (min 24 (max 0 (parsedOrZero v))) r).dayNumber = r.dayNumber ∧
      (metricStep id k (min 24 (max 0 (parsedOrZero v))) r).date = r.date ∧
      (metricStep id k (min 24 (max 0 (parsedOrZero v))) r).habits = r.habits ∧
      (∀ k2 : MetricKey, k2 ≠ k →
        (metricStep id k (min 24 (max 0 (parsedOrZero v))) r).metrics.get k2
          = r.metrics.get k2)) ∧
    ((∀ r ∈ records, r.id ≠ id) →
      handleHabitChange records id hk b = records ∧
      handleMetricChange records id k v = records) := by
  refine ⟨rfl, rfl, ?_, ?_, ?_, ?_⟩
  · intro r hne
    constructor <;> simp [habitStep, metricStep, hne]
  · intro r
    unfold habitStep
    split
    · exact ⟨rfl, rfl, rfl, rfl, fun k2 hk2 => DayHabits.get_set_other _ _ _ _ hk2⟩
    · exact ⟨rfl, rfl, rfl, rfl, fun k2 _ => rfl⟩
  · intro r
    unfold metricStep
    split
    · exact ⟨rfl, rfl, rfl, rfl, fun k2 hk2 => DayMetrics.get_set_other_metric _ _ _ _ hk2⟩
    · exact ⟨rfl, rfl, rfl, rfl, fun k2 _ => rfl⟩
  · intro hnone
    constructor
    · have hmap : records.map (habitStep id hk b) = records.map (fun r => r) :=
        List.map_eq_map_iff.mpr fun r hr => by simp [habitStep, hnone r hr]
      simpa [List.map_id] using hmap
    · have hmap : records.map (metricStep id k (min 24 (max 0 (parsedOrZero v))))
          = records.map (fun r => r) :=
        List.map_eq_map_iff.mpr fun r hr => by simp [metricStep, hnone r hr]
      simpa [handleMetricChange, List.map_id] using hmap

/-- Witness for C10 at a concrete collection whose record does not carry the
targeted id. -/
theorem handlers_frame_witness :
    habitStep 5 .noPorn true ⟨1, 1, "", ⟨false, false, false, false⟩, ⟨0, 0⟩, true⟩
      = ⟨1, 1, "", ⟨false, false, false, false⟩, ⟨0, 0⟩, true⟩ ∧
    handleHabitChange
        ([⟨1, 1, "", ⟨false, false, false, false⟩, ⟨0, 0⟩, true⟩] : List DayRecord)
        5 .noPorn true
      = [⟨1, 1, "", ⟨false, false, false, false⟩, ⟨0, 0⟩, true⟩] ∧
    handleMetricChange
        ([⟨1, 1, "", ⟨false, false, false, false⟩, ⟨0, 0⟩, true⟩] : List DayRecord)
        5 .studyHours (some 3)
      = [⟨1, 1, "", ⟨false, false, false, false⟩, ⟨0, 0⟩, true⟩] := by
  refine ⟨((handlers_frame
      ([⟨1, 1, "", ⟨false, false, false, false⟩, ⟨0, 0⟩, true⟩] : List DayRecord)
      5 .noPorn true .studyHours (some 3)).2.2.1 _ (by decide)).1, ?_, ?_⟩
  · exact ((handlers_frame _ 5 .noPorn true .studyHours (some 3)).2.2.2.2.2
      (by decide)).1
  · exact ((handlers_frame
      ([⟨1, 1, "", ⟨false, false, false, false⟩, ⟨0, 0⟩, true⟩] : List DayRecord)
      5 .noPorn true .studyHours (some 3)).2.2.2.2.2 (by decide)).2

end Tracker
